import Mathlib

/-!
Verification of the KPAdmin form-submission app (src/main.py): a shallow
embedding of its repository-update routines (fetch_records, post_to_repo,
update_repo_file) and of the submit handler, together with theorems about
the claims of the specification.

External effects are made explicit: each modeled function takes the outcome
of its remote calls as a parameter and returns, besides its Python return
value, the list of HTTP requests it issued and the error messages it
reported through the UI layer.
-/

namespace KPAdmin

/-- HTTP method of a request issued by the app. -/
inductive Method
  | get
  | post
  | put
deriving DecidableEq, Repr

/-- JSON body of a contents-API write request, as built by the code:
post_to_repo sends message, content and branch and never a sha;
update_repo_file sends message, content and possibly a sha and no branch.
Absent JSON keys are modeled as none. -/
structure Payload where
  message : String
  content : String
  branch : Option String
  sha : Option String
deriving DecidableEq, Repr

/-- An HTTP request: method, URL, and JSON body (none for GET). -/
structure Request where
  method : Method
  url : String
  payload : Option Payload
deriving DecidableEq, Repr

/-- The session-state configuration read from secrets at startup
(main.py lines 19-24). -/
structure Config where
  repo_url : String
  api_base : String
  branch : String
  owner : String
  repo : String
deriving DecidableEq, Repr

/-- The contents-API URL built by post_to_repo and update_repo_file
(main.py lines 67 and 108). -/
def contentsUrl (cfg : Config) (file_path : String) : String :=
  cfg.api_base ++ "/repos/" ++ cfg.owner ++ "/" ++ cfg.repo ++ "/contents/" ++ file_path

/-- The raw-fetch URL built by fetch_records (main.py line 37). -/
def rawUrl (cfg : Config) (file_path : String) : String :=
  cfg.repo_url ++ "/raw/" ++ cfg.branch ++ "/" ++ file_path

/-- A wall-clock instant, the components datetime.now exposes to strftime. -/
structure DateTime where
  year : Nat
  month : Nat
  day : Nat
  hour : Nat
  minute : Nat
deriving DecidableEq, Repr

/-- Zero-padded two-digit rendering, as strftime prints month, day, hour
and minute fields. -/
def pad2 (n : Nat) : String :=
  if n < 10 then "0" ++ toString n else toString n

/-- Zero-padded four-digit rendering, as strftime prints the year. -/
def pad4 (n : Nat) : String :=
  if n < 10 then "000" ++ toString n
  else if n < 100 then "00" ++ toString n
  else if n < 1000 then "0" ++ toString n
  else toString n

/-- datetime.now().strftime of the pattern used in the default commit
messages (main.py lines 69 and 138). The pattern in the source repeats
the month directive in the final position, so the rendered string is
year-month-day-hour-month, not year-month-day-hour-minute. -/
def commitTimestamp (t : DateTime) : String :=
  pad4 t.year ++ "-" ++ pad2 t.month ++ "-" ++ pad2 t.day ++ "-" ++
    pad2 t.hour ++ "-" ++ pad2 t.month

/-- Modelled from the spec: the audit-timestamp pattern
YYYY-MM-DD-HH-mm of section 6, whose final component is the minute. Kept
for comparison with commitTimestamp, which embeds the source. -/
def specAuditTimestamp (t : DateTime) : String :=
  pad4 t.year ++ "-" ++ pad2 t.month ++ "-" ++ pad2 t.day ++ "-" ++
    pad2 t.hour ++ "-" ++ pad2 t.minute

/-- datetime.now().strftime of the date pattern used for the signed_on
field and the document path (main.py line 196). -/
def dateStr (t : DateTime) : String :=
  pad4 t.year ++ "-" ++ pad2 t.month ++ "-" ++ pad2 t.day

/-- The base64 alphabet character of index n. -/
def b64Char (n : Nat) : Char :=
  ("ABCDEFGHIJKLMNOPQRSTUVWXYZabcdefghijklmnopqrstuvwxyz0123456789+/").toList.getD n '='

/-- Standard base64 of a byte sequence, as base64.b64encode computes it;
bytes are Nat values below 256 (reduced mod 256 for totality). -/
def base64Encode : List Nat → String
  | [] => ""
  | [a] =>
    let a := a % 256
    String.mk [b64Char (a / 4), b64Char (a % 4 * 16)] ++ "=="
  | [a, b] =>
    let a := a % 256
    let b := b % 256
    String.mk [b64Char (a / 4), b64Char (a % 4 * 16 + b / 16), b64Char (b % 16 * 4)] ++ "="
  | a :: b :: c :: rest =>
    let a := a % 256
    let b := b % 256
    let c := c % 256
    String.mk [b64Char (a / 4), b64Char (a % 4 * 16 + b / 16),
      b64Char (b % 16 * 4 + c / 64), b64Char (c % 64)] ++ base64Encode rest

/-- UTF-8 bytes of a string, as str.encode produces them. -/
def strBytes (s : String) : List Nat :=
  s.toUTF8.toList.map (fun b => b.toNat)

/-- A row of the ledger assets/form_records.csv; the submit handler
builds rows with exactly these three columns (main.py lines 216-220). -/
structure Row where
  name : String
  form : String
  signed_on : String
deriving DecidableEq, Repr

/-- The ledger column set, in the deterministic order the DataFrame
holds them. -/
def ledgerColumns : List String :=
  ["name", "form", "signed_on"]

/-- The cell grid DataFrame.to_csv serializes: a header line followed by
one line per row. With index true, pandas prepends an index cell to every
line (an empty header cell and the running row number); the code always
passes index=False. -/
def csvTable (df : List Row) (index : Bool) : List (List String) :=
  ((if index then [""] else []) ++ ledgerColumns) ::
    df.enum.map (fun p =>
      (if index then [toString p.1] else []) ++ [p.2.name, p.2.form, p.2.signed_on])

/-- DataFrame.to_csv: the cell grid rendered with comma separators, one
line per grid row (main.py line 130). -/
def to_csv (df : List Row) (index : Bool) : String :=
  String.join ((csvTable df index).map (fun cells => String.intercalate "," cells ++ "\n"))

/-- pd.concat([df, pd.DataFrame([r])], ignore_index=True) as called on
main.py line 223: df is the Option returned by fetch_records; pd.concat
silently drops None members of its argument list, so a failed fetch
contributes no rows. -/
def concatRecords (df : Option (List Row)) (r : Row) : List Row :=
  (match df with
    | some rows => rows
    | none => []) ++ [r]

/-- The new ledger row the submit handler builds (main.py lines 216-220). -/
def newRecord (name date : String) : Row :=
  { name := name, form := "f100d_e", signed_on := date }

/-- Outcome of the requests.get call inside fetch_records: an HTTP
response, carried with the table pd.read_csv decodes from its body (the
body is only consumed when the status is 200), or a raised exception. -/
inductive RawGetResult
  | status (code : Nat) (table : List Row)
  | exn (msg : String)
deriving DecidableEq, Repr

/-- What fetch_records produces: its Python return value (a DataFrame or
None), the request it issued, and the st.error messages it reported. -/
structure FetchOutcome where
  table : Option (List Row)
  request : Request
  errors : List String
deriving DecidableEq, Repr

/-- fetch_records (main.py lines 27-47): GET the raw URL; on status 200
decode the body as CSV, otherwise report the status and return None; on a
raised exception report it and return None. -/
def fetch_records (cfg : Config) (file_path : String) (r : RawGetResult) : FetchOutcome :=
  let req : Request := { method := Method.get, url := rawUrl cfg file_path, payload := none }
  match r with
  | RawGetResult.status code table =>
    if code = 200 then
      { table := some table, request := req, errors := [] }
    else
      { table := none, request := req,
        errors := ["Failed to fetch " ++ file_path ++ ". Status code: " ++ toString code] }
  | RawGetResult.exn e =>
    { table := none, request := req, errors := ["Error: " ++ e] }

/-- What post_to_repo produces: its Python return value, the requests it
issued, and the st.error messages it reported. -/
structure PostOutcome where
  result : Bool
  requests : List Request
  errors : List String
deriving DecidableEq, Repr

/-- post_to_repo (main.py lines 50-83): base64-encode the document bytes,
default the commit message when the argument is None (Python checks
message is None, so an empty string is kept), send one POST to the
contents URL with message, content and branch in the body, and return
True exactly on status 200 or 201. The response body echoed in the error
message is abstracted to the status code. -/
def postMessage (name : String) (message : Option String) (now : DateTime) : String :=
  match message with
  | none => "PDF uploaded by " ++ name ++ " at " ++ commitTimestamp now
  | some m => m

/-- The single request post_to_repo issues. -/
def postRequest (cfg : Config) (pdfContent : List Nat) (file_path : String)
    (name : String) (message : Option String) (now : DateTime) : Request :=
  { method := Method.post, url := contentsUrl cfg file_path,
    payload := some
      { message := postMessage name message now, content := base64Encode pdfContent,
        branch := some cfg.branch, sha := none } }

def post_to_repo (cfg : Config) (pdfContent : List Nat) (file_path : String)
    (name : String) (message : Option String) (now : DateTime)
    (respStatus : Nat) : PostOutcome :=
  let req : Request := postRequest cfg pdfContent file_path name message now
  if respStatus = 200 ∨ respStatus = 201 then
    { result := true, requests := [req], errors := [] }
  else
    { result := false, requests := [req],
      errors := ["Failed to commit: status " ++ toString respStatus] }

/-- Outcome of the requests.get call inside update_repo_file: an HTTP
response, carried with the sha field of its JSON body (only consumed when
the status is 200), or a raised RequestException. -/
inductive GetResult
  | status (code : Nat) (sha : String)
  | exn (msg : String)
deriving DecidableEq, Repr

/-- Outcome of the requests.put call inside update_repo_file. -/
inductive PutResult
  | status (code : Nat)
  | exn (msg : String)
deriving DecidableEq, Repr

/-- The new_content argument of update_repo_file: a pandas DataFrame
(here, ledger rows) or any value of another type. -/
inductive NewContent
  | df (rows : List Row)
  | notDF
deriving DecidableEq, Repr

/-- What update_repo_file produces: its Python return value, the requests
it issued, and the st.error messages it reported. -/
structure UpdateOutcome where
  result : Bool
  requests : List Request
  errors : List String
deriving DecidableEq, Repr

/-- Steps 2-5 of update_repo_file (main.py lines 128-158), reached once
the GET step has fixed the sha (Some for an existing file, none for a
404): serialize the DataFrame without index, base64-encode it, default
the commit message when the argument is falsy (None or empty), include
the sha key only when sha is truthy (a non-None, non-empty string), and
send the PUT, returning True exactly on status 200 or 201. -/
def updatePayload (sha : Option String) (rows : List Row) (name : String)
    (commit_message : Option String) (now : DateTime) : Payload :=
  let csv_string := to_csv rows false
  let content_base64 := base64Encode (strBytes csv_string)
  let defaultMsg := "Edited by " ++ name ++ " at " ++ commitTimestamp now
  let msg :=
    match commit_message with
    | none => defaultMsg
    | some m => if m = "" then defaultMsg else m
  { message := msg, content := content_base64, branch := none,
    sha :=
      match sha with
      | some s => if s = "" then none else some s
      | none => none }

def update_put (url : String) (getReq : Request) (sha : Option String)
    (rows : List Row) (name : String) (commit_message : Option String)
    (now : DateTime) (putRes : PutResult) : UpdateOutcome :=
  let data : Payload := updatePayload sha rows name commit_message now
  let putReq : Request := { method := Method.put, url := url, payload := some data }
  match putRes with
  | PutResult.exn e =>
    { result := false, requests := [getReq, putReq],
      errors := ["Failed to update file: " ++ e] }
  | PutResult.status pcode =>
    if pcode = 200 ∨ pcode = 201 then
      { result := true, requests := [getReq, putReq], errors := [] }
    else
      { result := false, requests := [getReq, putReq],
        errors := ["Failed to update file: " ++ toString pcode] }

/-- update_repo_file (main.py lines 86-158): reject a non-DataFrame
new_content before any request is made; GET the contents URL; on 200 take
the sha from the response, on 404 proceed without one, on any other
status or on a raised exception report and return False; then run the
serialize-and-PUT steps. -/
def update_repo_file (cfg : Config) (file_path : String) (new_content : NewContent)
    (name : String) (commit_message : Option String) (now : DateTime)
    (getRes : GetResult) (putRes : PutResult) : UpdateOutcome :=
  match new_content with
  | NewContent.notDF =>
    { result := false, requests := [],
      errors := ["new_content must be a Pandas DataFrame"] }
  | NewContent.df rows =>
    let url := contentsUrl cfg file_path
    let getReq : Request := { method := Method.get, url := url, payload := none }
    match getRes with
    | GetResult.exn e =>
      { result := false, requests := [getReq],
        errors := ["Failed to fetch file info: " ++ e] }
    | GetResult.status code shaField =>
      if code = 200 then
        update_put url getReq (some shaField) rows name commit_message now putRes
      else if code = 404 then
        update_put url getReq none rows name commit_message now putRes
      else
        { result := false, requests := [getReq],
          errors := ["Error retrieving file info: " ++ toString code] }

/-- The payload of the first PUT request in a request list, if any. -/
def firstPut : List Request → Option Payload
  | [] => none
  | r :: rs => if r.method = Method.put then r.payload else firstPut rs

/-- The payload of the PUT request an update_repo_file run issued, if any. -/
def sentPut (o : UpdateOutcome) : Option Payload :=
  firstPut o.requests

/-- Functional update of the session dictionary st.session_state. -/
def updateDict (d : String → Option String) (k v : String) : String → Option String :=
  fun x => if x = k then some v else d x

/-- The assignment loop of the submit handler (main.py lines 204-205):
for input_value, field in zip(inputs, form_fields) assign
dict[field] = input_value. zip truncates to the shorter list. -/
def fillZip : (String → Option String) → List String → List String → (String → Option String)
  | d, v :: vs, f :: fs => fillZip (updateDict d f v) vs fs
  | d, _, _ => d

/-- Outcomes of the remote calls a single submission performs, in
pipeline order. -/
structure SubmitEnv where
  fetchRes : RawGetResult
  ledgerGet : GetResult
  ledgerPut : PutResult
  pdfStatus : Nat
deriving DecidableEq, Repr

/-- What one run of the submit handler produces: the filled field
dictionary, the DataFrame written to the ledger, both step results, the
document path, every request issued, every error reported, and whether
the final records link was shown. -/
structure SubmitOutcome where
  filled : String → Option String
  ledgerDf : List Row
  recordSuccess : Bool
  pdfPath : String
  pdfSuccess : Bool
  requests : List Request
  errors : List String
  linkShown : Bool

/-- The submit handler (main.py lines 201-233): build the inputs list
with signature_text = name and date = today, assign inputs to template
fields positionally, build the new ledger row, fetch the current ledger,
append the row, write the ledger back through update_repo_file, post the
filled PDF to its per-submission path, and show the records link only
when both writes succeeded. Both remote writes always run; no step is
skipped after a failure. -/
def submit (cfg : Config) (formFields : List String)
    (sessionDict : String → Option String)
    (trainee_name name department institution : String) (now : DateTime)
    (pdfBytes : List Nat) (env : SubmitEnv) : SubmitOutcome :=
  let date := dateStr now
  let signature_text := name
  let inputs := [trainee_name, name, department, institution, signature_text, date]
  let filled := fillZip sessionDict inputs formFields
  let record := newRecord name date
  let fetchOut := fetch_records cfg "assets/form_records.csv" env.fetchRes
  let df := concatRecords fetchOut.table record
  let updOut := update_repo_file cfg "assets/form_records.csv" (NewContent.df df)
    name none now env.ledgerGet env.ledgerPut
  let pdf_repo_path := "assets/filled_forms/f100d_e_" ++ name ++ "_" ++ date ++ ".pdf"
  let postOut := post_to_repo cfg pdfBytes pdf_repo_path name none now env.pdfStatus
  { filled := filled
    ledgerDf := df
    recordSuccess := updOut.result
    pdfPath := pdf_repo_path
    pdfSuccess := postOut.result
    requests := fetchOut.request :: (updOut.requests ++ postOut.requests)
    errors := fetchOut.errors ++ (updOut.errors ++ postOut.errors)
    linkShown := updOut.result && postOut.result }

/-! Concrete instances used by witnesses and counterexamples. -/

/-- An example configuration. -/
def cfgEx : Config :=
  { repo_url := "http://repo", api_base := "http://api", branch := "main",
    owner := "lab", repo := "KPAdmin" }

/-- An example instant: 2024-01-02, 03:04. -/
def dtEx : DateTime :=
  { year := 2024, month := 1, day := 2, hour := 3, minute := 4 }

/-- An instant whose minute differs from its month: 2024-01-01, 12:30. -/
def dtBug : DateTime :=
  { year := 2024, month := 1, day := 1, hour := 12, minute := 30 }

/-- Six distinct template field identifiers, as the f100d_e template
declares six fillable fields. -/
def fieldsEx : List String :=
  ["Trainee", "Name", "Department", "Institution", "Signature", "Date"]

/-! Helper lemmas shared by several claim proofs. -/

/-- update_put always issues its PUT, whose payload carries the sha that
survived the Python truthiness test. -/
theorem sentPut_update_put (url : String) (g : Request) (hg : g.method ≠ Method.put)
    (sha : Option String) (rows : List Row) (name : String) (cm : Option String)
    (now : DateTime) (pr : PutResult) :
    sentPut (update_put url g sha rows name cm now pr) =
      some (updatePayload sha rows name cm now) := by
  cases pr with
  | exn e => simp [update_put, sentPut, firstPut, hg]
  | status c =>
    by_cases hc : c = 200 ∨ c = 201 <;>
      simp [update_put, sentPut, firstPut, hg, hc]

/-- The sha key of the PUT payload survives exactly when the observed sha
was a truthy (non-empty) string. -/
theorem updatePayload_sha (sha : Option String) (rows : List Row) (name : String)
    (cm : Option String) (now : DateTime) :
    (updatePayload sha rows name cm now).sha =
      (match sha with
        | some s => if s = "" then none else some s
        | none => none) := rfl

/-- A false update_repo_file run on a DataFrame always reported an error. -/
theorem update_repo_file_false_errors (cfg : Config) (fp : String) (rows : List Row)
    (name : String) (cm : Option String) (now : DateTime)
    (g : GetResult) (p : PutResult)
    (h : (update_repo_file cfg fp (NewContent.df rows) name cm now g p).result = false) :
    (update_repo_file cfg fp (NewContent.df rows) name cm now g p).errors ≠ [] := by
  cases g with
  | exn e => simp [update_repo_file]
  | status code shaField =>
    by_cases h200 : code = 200 <;> by_cases h404 : code = 404 <;>
      cases p with
      | exn e => simp_all [update_repo_file, update_put]
      | status pc =>
        by_cases hpc : pc = 200 ∨ pc = 201 <;>
          simp_all [update_repo_file, update_put]

/-- A false post_to_repo run always reported an error. -/
theorem post_to_repo_false_errors (cfg : Config) (pdfBytes : List Nat)
    (fp name : String) (message : Option String) (now : DateTime) (status : Nat)
    (h : (post_to_repo cfg pdfBytes fp name message now status).result = false) :
    (post_to_repo cfg pdfBytes fp name message now status).errors ≠ [] := by
  by_cases hs : status = 200 ∨ status = 201 <;> simp_all [post_to_repo]

/-- post_to_repo issues exactly its one POST request, whatever the response. -/
theorem post_to_repo_requests (cfg : Config) (pdfBytes : List Nat)
    (fp name : String) (message : Option String) (now : DateTime) (status : Nat) :
    (post_to_repo cfg pdfBytes fp name message now status).requests =
      [postRequest cfg pdfBytes fp name message now] := by
  by_cases hs : status = 200 ∨ status = 201 <;> simp [post_to_repo, hs]

/-- update_repo_file on a DataFrame always issues its GET request first. -/
theorem update_repo_file_get_req (cfg : Config) (fp : String) (rows : List Row)
    (name : String) (cm : Option String) (now : DateTime)
    (g : GetResult) (p : PutResult) :
    ({ method := Method.get, url := contentsUrl cfg fp, payload := none } : Request) ∈
      (update_repo_file cfg fp (NewContent.df rows) name cm now g p).requests := by
  cases g with
  | exn e => simp [update_repo_file]
  | status code shaField =>
    by_cases h200 : code = 200 <;> by_cases h404 : code = 404 <;>
      cases p with
      | exn e => simp_all [update_repo_file, update_put]
      | status pc =>
        by_cases hpc : pc = 200 ∨ pc = 201 <;>
          simp_all [update_repo_file, update_put]

/-- A fetch_records run that returned None reported an error. -/
theorem fetch_records_none_errors (cfg : Config) (fp : String) (r : RawGetResult)
    (h : (fetch_records cfg fp r).table = none) :
    (fetch_records cfg fp r).errors ≠ [] := by
  cases r with
  | exn e => simp [fetch_records]
  | status code table =>
    by_cases hc : code = 200 <;> simp_all [fetch_records]

/-! Claim theorems. -/

/-- Claim C9: for every input new_content that is not a pandas DataFrame,
update_repo_file returns False and issues no HTTP request at all, leaving
the remote store untouched. -/
theorem update_repo_file_non_dataframe (cfg : Config) (fp name : String)
    (cm : Option String) (now : DateTime) (g : GetResult) (p : PutResult) :
    (update_repo_file cfg fp NewContent.notDF name cm now g p).result = false ∧
    (update_repo_file cfg fp NewContent.notDF name cm now g p).requests = [] :=
  ⟨rfl, rfl⟩

/-- Claim C5, code bug: both default commit messages format their
timestamp with the month directive in the minute position, so at
2024-01-01 12:30 the code renders 2024-01-01-12-01 where the spec pattern
YYYY-MM-DD-HH-mm requires 2024-01-01-12-30. -/
theorem default_commit_message_month_bug :
    commitTimestamp dtBug = "2024-01-01-12-01" ∧
    specAuditTimestamp dtBug = "2024-01-01-12-30" ∧
    commitTimestamp dtBug ≠ specAuditTimestamp dtBug ∧
    (post_to_repo cfgEx [] "p" "N" none dtBug 200).requests.map
        (fun r => r.payload.map (fun pl => pl.message)) =
      [some "PDF uploaded by N at 2024-01-01-12-01"] ∧
    (sentPut (update_repo_file cfgEx "assets/form_records.csv" (NewContent.df [])
          "N" none dtBug (GetResult.status 404 "") (PutResult.status 201))).map
        (fun pl => pl.message) =
      some "Edited by N at 2024-01-01-12-01" := by
  refine ⟨by decide, by decide, by decide, by decide, by decide⟩

/-- Claim C7, counterexample: the single request post_to_repo issues is a
POST, not a PUT, already on a concrete input. -/
theorem post_to_repo_method_cx :
    (post_to_repo cfgEx [72] "assets/filled_forms/x.pdf" "N" none dtEx 200).requests.map
        (fun r => r.method) = [Method.post] ∧
    Method.post ≠ Method.put := by
  refine ⟨by decide, by decide⟩

/-- Claim C7 as amended: post_to_repo sends exactly one HTTP POST request
to the contents URL whose JSON body contains the commit message, the
base64-encoded document bytes and the branch, and no sha; it returns True
exactly when the response status is 200 or 201. -/
theorem post_to_repo_request_shape (cfg : Config) (pdfBytes : List Nat)
    (fp name : String) (message : Option String) (now : DateTime) (status : Nat) :
    (post_to_repo cfg pdfBytes fp name message now status).requests =
      [{ method := Method.post, url := contentsUrl cfg fp,
         payload := some
           { message := postMessage name message now,
             content := base64Encode pdfBytes,
             branch := some cfg.branch, sha := none } }] ∧
    ((post_to_repo cfg pdfBytes fp name message now status).result = true ↔
      (status = 200 ∨ status = 201)) := by
  constructor
  · exact post_to_repo_requests cfg pdfBytes fp name message now status
  · by_cases hs : status = 200 ∨ status = 201 <;> simp [post_to_repo, hs]

/-- Claim C1: the PUT body of update_repo_file includes the sha observed
at read time exactly when the preceding GET found the file with status
200; after a 404 the sha key is omitted, so the write is a create. The
revision token of an existing file is assumed non-empty, as the store
returns opaque non-empty identifiers. -/
theorem update_repo_file_sha_iff_found (cfg : Config) (fp : String) (rows : List Row)
    (name : String) (cm : Option String) (now : DateTime) (pr : PutResult)
    (shaField : String) (hsha : shaField ≠ "") :
    (∃ p, sentPut (update_repo_file cfg fp (NewContent.df rows) name cm now
        (GetResult.status 200 shaField) pr) = some p ∧ p.sha = some shaField) ∧
    (∃ p, sentPut (update_repo_file cfg fp (NewContent.df rows) name cm now
        (GetResult.status 404 shaField) pr) = some p ∧ p.sha = none) ∧
    (∀ code p, sentPut (update_repo_file cfg fp (NewContent.df rows) name cm now
        (GetResult.status code shaField) pr) = some p →
      (p.sha.isSome = true ↔ code = 200)) := by
  have hg : ({ method := Method.get, url := contentsUrl cfg fp, payload := none } :
      Request).method ≠ Method.put := fun h => Method.noConfusion h
  have h200 : update_repo_file cfg fp (NewContent.df rows) name cm now
      (GetResult.status 200 shaField) pr =
      update_put (contentsUrl cfg fp)
        { method := Method.get, url := contentsUrl cfg fp, payload := none }
        (some shaField) rows name cm now pr := by
    simp [update_repo_file]
  have h404 : update_repo_file cfg fp (NewContent.df rows) name cm now
      (GetResult.status 404 shaField) pr =
      update_put (contentsUrl cfg fp)
        { method := Method.get, url := contentsUrl cfg fp, payload := none }
        none rows name cm now pr := by
    simp [update_repo_file]
  have hs200 := sentPut_update_put (contentsUrl cfg fp) _ hg (some shaField) rows name cm now pr
  have hs404 := sentPut_update_put (contentsUrl cfg fp) _ hg none rows name cm now pr
  refine ⟨?_, ?_, ?_⟩
  · refine ⟨updatePayload (some shaField) rows name cm now, ?_, ?_⟩
    · rw [h200]; exact hs200
    · rw [updatePayload_sha]; simp [hsha]
  · refine ⟨updatePayload none rows name cm now, ?_, ?_⟩
    · rw [h404]; exact hs404
    · rw [updatePayload_sha]
  · intro code p hp
    by_cases hc200 : code = 200
    · subst hc200
      rw [h200, hs200] at hp
      have hp2 : p = updatePayload (some shaField) rows name cm now :=
        (Option.some_injective _ hp).symm
      subst hp2
      rw [updatePayload_sha]
      simp [hsha]
    · by_cases hc404 : code = 404
      · subst hc404
        rw [h404, hs404] at hp
        have hp2 : p = updatePayload none rows name cm now :=
          (Option.some_injective _ hp).symm
        subst hp2
        rw [updatePayload_sha]
        simp [hc200]
      · exfalso
        have : sentPut (update_repo_file cfg fp (NewContent.df rows) name cm now
            (GetResult.status code shaField) pr) = none := by
          simp [update_repo_file, hc200, hc404, sentPut, firstPut]
        rw [this] at hp
        exact Option.noConfusion hp

/-- Witness for C1 at a concrete input: sha token abc is non-empty, the
200 run includes it and the 404 run omits it. -/
theorem update_repo_file_sha_iff_found_witness :
    ("abc" : String) ≠ "" ∧
    (∃ p, sentPut (update_repo_file cfgEx "assets/form_records.csv"
        (NewContent.df []) "N" none dtEx
        (GetResult.status 200 "abc") (PutResult.status 200)) = some p ∧
      p.sha = some "abc") := by
  have h := update_repo_file_sha_iff_found cfgEx "assets/form_records.csv" []
    "N" none dtEx (PutResult.status 200) "abc" (by decide)
  exact ⟨by decide, h.1⟩

/-- The second components of an enumerated list are the list itself,
whatever values the counter takes. -/
theorem enum_map_cells (f : Row → List String) (l : List Row) :
    l.enum.map (fun p => f p.2) = l.map f := by
  have h1 : (fun p : Nat × Row => f p.2) = f ∘ Prod.snd := rfl
  rw [h1, ← List.map_map, List.enum_map_snd]

/-- Claim C3: appending a submission row to an existing ledger yields a
table of one more row, with the prior rows unchanged and in order, the
new row last with its fields intact, and a serialized CSV whose lines
follow the fixed column order and carry no index column. -/
theorem ledger_append_rows (L : List Row) (n d : String) :
    (concatRecords (some L) (newRecord n d)).length = L.length + 1 ∧
    (concatRecords (some L) (newRecord n d)).take L.length = L ∧
    (concatRecords (some L) (newRecord n d)).drop L.length = [newRecord n d] ∧
    (newRecord n d).name = n ∧ (newRecord n d).form = "f100d_e" ∧
    (newRecord n d).signed_on = d ∧
    csvTable (concatRecords (some L) (newRecord n d)) false =
      ledgerColumns :: (concatRecords (some L) (newRecord n d)).map
        (fun row => [row.name, row.form, row.signed_on]) ∧
    ∀ cells ∈ csvTable (concatRecords (some L) (newRecord n d)) false,
      cells.length = ledgerColumns.length := by
  have hconcat : concatRecords (some L) (newRecord n d) = L ++ [newRecord n d] := rfl
  have htable : csvTable (concatRecords (some L) (newRecord n d)) false =
      ledgerColumns :: (concatRecords (some L) (newRecord n d)).map
        (fun row => [row.name, row.form, row.signed_on]) := by
    simp only [csvTable, if_neg Bool.false_ne_true, List.nil_append]
    rw [enum_map_cells (fun row => [row.name, row.form, row.signed_on])]
  refine ⟨?_, ?_, ?_, rfl, rfl, rfl, htable, ?_⟩
  · rw [hconcat]; simp
  · rw [hconcat]; exact List.take_left L [newRecord n d]
  · rw [hconcat]; exact List.drop_left L [newRecord n d]
  · intro cells hc
    rw [htable] at hc
    rcases List.mem_cons.mp hc with h | h
    · rw [h]
    · rcases List.mem_map.mp h with ⟨row, _, hrow⟩
      rw [← hrow]
      rfl

/-- A field outside the assigned zip range keeps its prior value. -/
theorem fillZip_not_mem_take (vs : List String) :
    ∀ (fs : List String) (d : String → Option String) (f : String),
      f ∉ fs.take vs.length → fillZip d vs fs f = d f := by
  induction vs with
  | nil =>
    intro fs d f _
    cases fs <;> rfl
  | cons v vs ih =>
    intro fs d f h
    cases fs with
    | nil => rfl
    | cons f0 fs =>
      rw [List.length_cons, List.take_succ_cons, List.mem_cons] at h
      push_neg at h
      show fillZip (updateDict d f0 v) vs fs f = d f
      rw [ih fs (updateDict d f0 v) f h.2]
      simp [updateDict, h.1]

/-- When the declared fields are distinct, the zip loop stores the value
of index i at the field of index i. -/
theorem fillZip_get :
    ∀ (vs fs : List String) (d : String → Option String) (i : Nat) (v f : String),
      vs.get? i = some v → fs.get? i = some f → fs.Nodup →
      fillZip d vs fs f = some v := by
  intro vs
  induction vs with
  | nil =>
    intro fs d i v f hv _ _
    simp at hv
  | cons v0 vs ih =>
    intro fs d i v f hv hf hnd
    cases fs with
    | nil => simp at hf
    | cons f0 fs =>
      cases i with
      | zero =>
        rw [List.get?_cons_zero, Option.some_inj] at hv hf
        subst hv
        subst hf
        show fillZip (updateDict d f0 v0) vs fs f0 = some v0
        have hf0 : f0 ∉ fs.take vs.length := fun hmem =>
          (List.nodup_cons.mp hnd).1 (List.take_subset _ _ hmem)
        rw [fillZip_not_mem_take vs fs _ f0 hf0]
        simp [updateDict]
      | succ i =>
        rw [List.get?_cons_succ] at hv hf
        exact ih fs (updateDict d f0 v0) i v f hv hf (List.nodup_cons.mp hnd).2

/-- Claim C8: with N declared fields and k supplied values, k smaller
than N, the positional fill assigns the first k values to the first k
fields in declared order, leaves every later field untouched (unset when
it was unset), changes no field outside the first k, and is a total
function, so no error is raised. -/
theorem fill_fields_partial (d0 : String → Option String) (vals fields : List String)
    (_hk : vals.length < fields.length) (hnd : fields.Nodup) :
    (∀ i v f, vals.get? i = some v → fields.get? i = some f →
      fillZip d0 vals fields f = some v) ∧
    (∀ f, f ∉ fields.take vals.length → fillZip d0 vals fields f = d0 f) ∧
    (∀ f, f ∈ fields.drop vals.length → fillZip d0 vals fields f = d0 f) := by
  have hsplit : (fields.take vals.length ++ fields.drop vals.length).Nodup := by
    rw [List.take_append_drop]
    exact hnd
  have hdisj := (List.nodup_append.mp hsplit).2.2
  refine ⟨?_, ?_, ?_⟩
  · intro i v f hv hf
    exact fillZip_get vals fields d0 i v f hv hf hnd
  · intro f hf
    exact fillZip_not_mem_take vals fields d0 f hf
  · intro f hf
    exact fillZip_not_mem_take vals fields d0 f (fun hmem => hdisj hmem hf)

/-- Witness for C8: one value against two distinct fields assigns the
first field and leaves the second unset. -/
theorem fill_fields_partial_witness :
    ((["a"] : List String).length < (["x", "y"] : List String).length ∧
      (["x", "y"] : List String).Nodup) ∧
    fillZip (fun _ => none) ["a"] ["x", "y"] "y" = none := by
  have h := fill_fields_partial (fun _ => none) ["a"] ["x", "y"]
    (by decide) (by decide)
  exact ⟨⟨by decide, by decide⟩, h.2.2 "y" (by decide)⟩

/-- Claim C10: the submit handler assigns signature_text = name, so the
value stored at the template's signature field (the fifth declared field)
equals the value entered in the name field. -/
theorem signature_field_equals_name (cfg : Config) (formFields : List String)
    (sessionDict : String → Option String) (t n dep inst : String) (now : DateTime)
    (pdfBytes : List Nat) (env : SubmitEnv) (sigField : String)
    (hnd : formFields.Nodup) (hf : formFields.get? 4 = some sigField) :
    (submit cfg formFields sessionDict t n dep inst now pdfBytes env).filled sigField =
      some n := by
  have hfill : (submit cfg formFields sessionDict t n dep inst now pdfBytes env).filled =
      fillZip sessionDict [t, n, dep, inst, n, dateStr now] formFields := rfl
  rw [hfill]
  exact fillZip_get [t, n, dep, inst, n, dateStr now] formFields sessionDict 4 n sigField
    rfl hf hnd

/-- Witness for C10 at a concrete submission: the Signature field holds
the entered name. -/
theorem signature_field_equals_name_witness :
    (fieldsEx.Nodup ∧ fieldsEx.get? 4 = some "Signature") ∧
    (submit cfgEx fieldsEx (fun _ => none) "T" "Bob" "Chem" "MUN" dtEx [1]
      { fetchRes := RawGetResult.status 200 [],
        ledgerGet := GetResult.status 200 "abc",
        ledgerPut := PutResult.status 200, pdfStatus := 201 }).filled "Signature" =
      some "Bob" := by
  refine ⟨⟨by decide, by decide⟩, ?_⟩
  exact signature_field_equals_name cfgEx fieldsEx (fun _ => none) "T" "Bob" "Chem"
    "MUN" dtEx [1] _ "Signature" (by decide) (by decide)

/-- A submission whose ledger append fails (PUT answered 500) while the
document POST is answered 201. -/
def submitLedgerFail : SubmitOutcome :=
  submit cfgEx fieldsEx (fun _ => none) "T" "Bob" "Chem" "MUN" dtEx [1, 2]
    { fetchRes := RawGetResult.status 200 [],
      ledgerGet := GetResult.status 200 "abc",
      ledgerPut := PutResult.status 500, pdfStatus := 201 }

/-- Claim C2, counterexample: on a concrete submission whose ledger
append fails, the document publish is still attempted and even succeeds,
so a failed step does not stop the remaining steps. -/
theorem submit_publish_runs_after_ledger_failure_cx :
    submitLedgerFail.recordSuccess = false ∧
    submitLedgerFail.pdfSuccess = true ∧
    submitLedgerFail.errors ≠ [] := by
  refine ⟨by decide, by decide, by decide⟩

/-- Claim C2 as amended: every failed remote call is reported through an
error message, but the remaining steps still execute: the document POST
is issued on every submission, whatever the ledger steps did, and only
the final records link is gated on both step results. -/
theorem submit_failures_reported_steps_continue (cfg : Config) (formFields : List String)
    (sessionDict : String → Option String) (t n dep inst : String) (now : DateTime)
    (pdfBytes : List Nat) (env : SubmitEnv) :
    (postRequest cfg pdfBytes
        (submit cfg formFields sessionDict t n dep inst now pdfBytes env).pdfPath
        n none now ∈
      (submit cfg formFields sessionDict t n dep inst now pdfBytes env).requests) ∧
    ((submit cfg formFields sessionDict t n dep inst now pdfBytes env).linkShown =
      ((submit cfg formFields sessionDict t n dep inst now pdfBytes env).recordSuccess &&
        (submit cfg formFields sessionDict t n dep inst now pdfBytes env).pdfSuccess)) ∧
    ((submit cfg formFields sessionDict t n dep inst now pdfBytes env).recordSuccess =
        false →
      (submit cfg formFields sessionDict t n dep inst now pdfBytes env).errors ≠ []) ∧
    ((submit cfg formFields sessionDict t n dep inst now pdfBytes env).pdfSuccess =
        false →
      (submit cfg formFields sessionDict t n dep inst now pdfBytes env).errors ≠ []) := by
  have herrEq : (submit cfg formFields sessionDict t n dep inst now pdfBytes env).errors =
      (fetch_records cfg "assets/form_records.csv" env.fetchRes).errors ++
        ((update_repo_file cfg "assets/form_records.csv"
            (NewContent.df (concatRecords
              (fetch_records cfg "assets/form_records.csv" env.fetchRes).table
              (newRecord n (dateStr now))))
            n none now env.ledgerGet env.ledgerPut).errors ++
          (post_to_repo cfg pdfBytes
            ("assets/filled_forms/f100d_e_" ++ n ++ "_" ++ dateStr now ++ ".pdf")
            n none now env.pdfStatus).errors) := rfl
  have hrec : (submit cfg formFields sessionDict t n dep inst now pdfBytes env).recordSuccess =
      (update_repo_file cfg "assets/form_records.csv"
        (NewContent.df (concatRecords
          (fetch_records cfg "assets/form_records.csv" env.fetchRes).table
          (newRecord n (dateStr now))))
        n none now env.ledgerGet env.ledgerPut).result := rfl
  have hpdf : (submit cfg formFields sessionDict t n dep inst now pdfBytes env).pdfSuccess =
      (post_to_repo cfg pdfBytes
        ("assets/filled_forms/f100d_e_" ++ n ++ "_" ++ dateStr now ++ ".pdf")
        n none now env.pdfStatus).result := rfl
  have hreqEq : (submit cfg formFields sessionDict t n dep inst now pdfBytes env).requests =
      (fetch_records cfg "assets/form_records.csv" env.fetchRes).request ::
        ((update_repo_file cfg "assets/form_records.csv"
            (NewContent.df (concatRecords
              (fetch_records cfg "assets/form_records.csv" env.fetchRes).table
              (newRecord n (dateStr now))))
            n none now env.ledgerGet env.ledgerPut).requests ++
          (post_to_repo cfg pdfBytes
            ("assets/filled_forms/f100d_e_" ++ n ++ "_" ++ dateStr now ++ ".pdf")
            n none now env.pdfStatus).requests) := rfl
  have hpath : (submit cfg formFields sessionDict t n dep inst now pdfBytes env).pdfPath =
      "assets/filled_forms/f100d_e_" ++ n ++ "_" ++ dateStr now ++ ".pdf" := rfl
  refine ⟨?_, rfl, ?_, ?_⟩
  · rw [hpath, hreqEq, List.mem_cons]
    right
    rw [List.mem_append]
    right
    rw [post_to_repo_requests]
    exact List.mem_singleton.mpr rfl
  · intro h
    rw [hrec] at h
    have herr := update_repo_file_false_errors cfg "assets/form_records.csv" _
      n none now env.ledgerGet env.ledgerPut h
    rw [herrEq]
    intro hnil
    rcases List.append_eq_nil.mp hnil with ⟨_, h2⟩
    rcases List.append_eq_nil.mp h2 with ⟨h3, _⟩
    exact herr h3
  · intro h
    rw [hpdf] at h
    have herr := post_to_repo_false_errors cfg pdfBytes _ n none now env.pdfStatus h
    rw [herrEq]
    intro hnil
    rcases List.append_eq_nil.mp hnil with ⟨_, h2⟩
    rcases List.append_eq_nil.mp h2 with ⟨_, h4⟩
    exact herr h4

/-- Witness for the amended C2 at a concrete failed ledger append: the
error list is non-empty and the link equation holds. -/
theorem submit_failures_reported_steps_continue_witness :
    submitLedgerFail.errors ≠ [] ∧
    submitLedgerFail.linkShown = (submitLedgerFail.recordSuccess &&
      submitLedgerFail.pdfSuccess) := by
  have h := submit_failures_reported_steps_continue cfgEx fieldsEx (fun _ => none)
    "T" "Bob" "Chem" "MUN" dtEx [1, 2]
    { fetchRes := RawGetResult.status 200 [],
      ledgerGet := GetResult.status 200 "abc",
      ledgerPut := PutResult.status 500, pdfStatus := 201 }
  exact ⟨h.2.2.1 (by decide), h.2.1⟩

/-- A submission whose ledger read fails with status 500 while both
writes are answered with success codes. -/
def submitFetchFail : SubmitOutcome :=
  submit cfgEx fieldsEx (fun _ => none) "T" "Bob" "Chem" "MUN" dtEx [1, 2]
    { fetchRes := RawGetResult.status 500 [],
      ledgerGet := GetResult.status 200 "abc",
      ledgerPut := PutResult.status 200, pdfStatus := 201 }

/-- Claim C4, counterexample: on a concrete submission whose ledger read
fails with status 500 (a TransientError, not a 404), the handler reports
the error but does not abort: the ledger write is still performed, it
succeeds, and the table written holds only the new row. -/
theorem submit_proceeds_after_fetch_error_cx :
    submitFetchFail.errors ≠ [] ∧
    submitFetchFail.recordSuccess = true ∧
    submitFetchFail.ledgerDf = [newRecord "Bob" "2024-01-02"] := by
  refine ⟨by decide, by decide, by decide⟩

/-- Claim C4 as amended: the ledger read path does not distinguish
NotFound from a TransientError; on any failed read (None result) the
handler reports an error and proceeds with an empty table, so the
attempted ledger write contains exactly the one new row, and the
contents GET of the write step is still issued. -/
theorem ledger_read_failure_empty_table (cfg : Config) (formFields : List String)
    (sessionDict : String → Option String) (t n dep inst : String) (now : DateTime)
    (pdfBytes : List Nat) (env : SubmitEnv)
    (hfail : (fetch_records cfg "assets/form_records.csv" env.fetchRes).table = none) :
    (submit cfg formFields sessionDict t n dep inst now pdfBytes env).ledgerDf =
      [newRecord n (dateStr now)] ∧
    (submit cfg formFields sessionDict t n dep inst now pdfBytes env).errors ≠ [] ∧
    ({ method := Method.get, url := contentsUrl cfg "assets/form_records.csv",
        payload := none } : Request) ∈
      (submit cfg formFields sessionDict t n dep inst now pdfBytes env).requests := by
  have hdf : (submit cfg formFields sessionDict t n dep inst now pdfBytes env).ledgerDf =
      concatRecords (fetch_records cfg "assets/form_records.csv" env.fetchRes).table
        (newRecord n (dateStr now)) := rfl
  have herrEq : (submit cfg formFields sessionDict t n dep inst now pdfBytes env).errors =
      (fetch_records cfg "assets/form_records.csv" env.fetchRes).errors ++
        ((update_repo_file cfg "assets/form_records.csv"
            (NewContent.df (concatRecords
              (fetch_records cfg "assets/form_records.csv" env.fetchRes).table
              (newRecord n (dateStr now))))
            n none now env.ledgerGet env.ledgerPut).errors ++
          (post_to_repo cfg pdfBytes
            ("assets/filled_forms/f100d_e_" ++ n ++ "_" ++ dateStr now ++ ".pdf")
            n none now env.pdfStatus).errors) := rfl
  have hreqEq : (submit cfg formFields sessionDict t n dep inst now pdfBytes env).requests =
      (fetch_records cfg "assets/form_records.csv" env.fetchRes).request ::
        ((update_repo_file cfg "assets/form_records.csv"
            (NewContent.df (concatRecords
              (fetch_records cfg "assets/form_records.csv" env.fetchRes).table
              (newRecord n (dateStr now))))
            n none now env.ledgerGet env.ledgerPut).requests ++
          (post_to_repo cfg pdfBytes
            ("assets/filled_forms/f100d_e_" ++ n ++ "_" ++ dateStr now ++ ".pdf")
            n none now env.pdfStatus).requests) := rfl
  refine ⟨?_, ?_, ?_⟩
  · rw [hdf, hfail]
    rfl
  · have herr := fetch_records_none_errors cfg "assets/form_records.csv" env.fetchRes hfail
    rw [herrEq]
    intro hnil
    rcases List.append_eq_nil.mp hnil with ⟨h1, _⟩
    exact herr h1
  · rw [hreqEq, List.mem_cons]
    right
    rw [List.mem_append]
    left
    exact update_repo_file_get_req cfg "assets/form_records.csv" _ n none now
      env.ledgerGet env.ledgerPut

/-- Witness for the amended C4 at the concrete failed read: the written
table is exactly the one new row. -/
theorem ledger_read_failure_empty_table_witness :
    (fetch_records cfgEx "assets/form_records.csv"
      (RawGetResult.status 500 [])).table = none ∧
    submitFetchFail.ledgerDf = [newRecord "Bob" "2024-01-02"] := by
  have h := ledger_read_failure_empty_table cfgEx fieldsEx (fun _ => none)
    "T" "Bob" "Chem" "MUN" dtEx [1, 2]
    { fetchRes := RawGetResult.status 500 [],
      ledgerGet := GetResult.status 200 "abc",
      ledgerPut := PutResult.status 200, pdfStatus := 201 }
    (by decide)
  exact ⟨by decide, by
    have hdate : dateStr dtEx = "2024-01-02" := by decide
    rw [← hdate]
    exact h.1⟩

/-- Claim C6: a submission with name n on day d appends exactly the row
with name n, form f100d_e and signed_on d to the fetched ledger, and the
filled document is posted to the contents URL of
assets/filled_forms/f100d_e_n_d.pdf, a deterministic function of the
form identifier, the submitter name and the date. -/
theorem submit_record_and_path (cfg : Config) (formFields : List String)
    (sessionDict : String → Option String) (t n dep inst : String) (now : DateTime)
    (pdfBytes : List Nat) (env : SubmitEnv) (L : List Row)
    (hfetch : env.fetchRes = RawGetResult.status 200 L) :
    (submit cfg formFields sessionDict t n dep inst now pdfBytes env).ledgerDf =
      L ++ [{ name := n, form := "f100d_e", signed_on := dateStr now }] ∧
    (submit cfg formFields sessionDict t n dep inst now pdfBytes env).pdfPath =
      "assets/filled_forms/f100d_e_" ++ n ++ "_" ++ dateStr now ++ ".pdf" ∧
    postRequest cfg pdfBytes
        ("assets/filled_forms/f100d_e_" ++ n ++ "_" ++ dateStr now ++ ".pdf")
        n none now ∈
      (submit cfg formFields sessionDict t n dep inst now pdfBytes env).requests := by
  have hdf : (submit cfg formFields sessionDict t n dep inst now pdfBytes env).ledgerDf =
      concatRecords (fetch_records cfg "assets/form_records.csv" env.fetchRes).table
        (newRecord n (dateStr now)) := rfl
  have hreqEq : (submit cfg formFields sessionDict t n dep inst now pdfBytes env).requests =
      (fetch_records cfg "assets/form_records.csv" env.fetchRes).request ::
        ((update_repo_file cfg "assets/form_records.csv"
            (NewContent.df (concatRecords
              (fetch_records cfg "assets/form_records.csv" env.fetchRes).table
              (newRecord n (dateStr now))))
            n none now env.ledgerGet env.ledgerPut).requests ++
          (post_to_repo cfg pdfBytes
            ("assets/filled_forms/f100d_e_" ++ n ++ "_" ++ dateStr now ++ ".pdf")
            n none now env.pdfStatus).requests) := rfl
  refine ⟨?_, rfl, ?_⟩
  · rw [hdf, hfetch]
    show concatRecords (some L) (newRecord n (dateStr now)) = _
    rfl
  · rw [hreqEq, List.mem_cons]
    right
    rw [List.mem_append]
    right
    rw [post_to_repo_requests]
    exact List.mem_singleton.mpr rfl

/-- Witness for C6: the end-to-end example of the spec, name A. Example
on 2024-01-01, against a one-row prior ledger. -/
theorem submit_record_and_path_witness :
    ({ fetchRes := RawGetResult.status 200 [newRecord "B" "2023-12-31"],
        ledgerGet := GetResult.status 200 "abc",
        ledgerPut := PutResult.status 200, pdfStatus := 201 } : SubmitEnv).fetchRes =
      RawGetResult.status 200 [newRecord "B" "2023-12-31"] ∧
    (submit cfgEx fieldsEx (fun _ => none) "B" "A. Example" "Chem" "U"
        { year := 2024, month := 1, day := 1, hour := 9, minute := 5 } [1, 2]
        { fetchRes := RawGetResult.status 200 [newRecord "B" "2023-12-31"],
          ledgerGet := GetResult.status 200 "abc",
          ledgerPut := PutResult.status 200, pdfStatus := 201 }).pdfPath =
      "assets/filled_forms/f100d_e_A. Example_2024-01-01.pdf" := by
  have h := submit_record_and_path cfgEx fieldsEx (fun _ => none) "B" "A. Example"
    "Chem" "U" { year := 2024, month := 1, day := 1, hour := 9, minute := 5 } [1, 2]
    { fetchRes := RawGetResult.status 200 [newRecord "B" "2023-12-31"],
      ledgerGet := GetResult.status 200 "abc",
      ledgerPut := PutResult.status 200, pdfStatus := 201 }
    [newRecord "B" "2023-12-31"] rfl
  refine ⟨rfl, ?_⟩
  rw [h.2.1]
  decide

end KPAdmin
